import Mathlib

/-!
Verification of the doc_qa document question-answering core.

This file shallowly embeds the core of the repository (src/doc_qa/indexer.py,
src/doc_qa/retriever.py, src/doc_qa/composer.py) into Lean and proves or
refutes the frozen specification claims about it.

Modelling conventions:
- Python strings are Lean `String`; where the kernel must evaluate, helper
  functions work on the underlying `List Char` (`String.data`).
- Python `str.split()` (whitespace runs, empty pieces dropped) is `pyWords`;
  `str.strip()` is `stripChars`; `str.lower()` is a `Char.toLower` map.
- `uuid.uuid4().hex[:8]` (a fresh opaque chunk id per emitted chunk) is
  modelled by an injected id supply `freshId : Nat → String` giving the n-th
  freshly drawn identifier; no claim depends on the actual digits.
- `hashlib.md5(str(filepath).encode()).hexdigest()[:12]` is modelled by
  `_doc_id`, an opaque deterministic function of the file path; the claims
  only use that it is a function of the path.
- The on-disk index directory (one JSON file per doc_id) is modelled as a
  lookup table `Store := String → Option IndexRecord`; `json.dump`/`json.load`
  round-tripping of the record is the identity on the stored value.
- The external `rank_bm25.BM25Okapi` scorer is a parameter
  `getScores : List (List String) → List String → List ℚ` taking the
  tokenized corpus and the tokenized question (floats modelled as ℚ).
- The Anthropic network call in `compose_answer` is modelled by passing the
  backend response text `raw` as an argument; `json.loads` is modelled by an
  executable JSON parser over `List Char` (`parseVal`), and a Python
  exception escaping a function is an `Except.error`.
-/

/-- Whitespace used by Python `str.split()` / `str.strip()`. -/
def isWs (c : Char) : Bool := c.isWhitespace

/-- Helper for `pyWords`: scans characters, accumulating the current word
(reversed) in `acc`, emitting a word at each whitespace run boundary. -/
def pyWordsAux : List Char → List Char → List String
  | [], acc => if acc.isEmpty then [] else [String.mk acc.reverse]
  | c :: rest, acc =>
    if isWs c then
      (if acc.isEmpty then [] else [String.mk acc.reverse]) ++ pyWordsAux rest []
    else pyWordsAux rest (c :: acc)

/-- Python `text.split()`: split on whitespace runs, dropping empty pieces. -/
def pyWords (s : String) : List String := pyWordsAux s.data []

/-- Python `str.strip()`: drop leading and trailing whitespace. -/
def stripChars (cs : List Char) : List Char :=
  ((cs.dropWhile isWs).reverse.dropWhile isWs).reverse

/-- Python `s.split(sep, 1)` when `sep` occurs in `s`: returns the part
before the first occurrence of `pat` and the part after it, or `none` when
`pat` does not occur. -/
def splitFirst (pat : List Char) : List Char → Option (List Char × List Char)
  | [] => none
  | c :: rest =>
    if pat.isPrefixOf (c :: rest) then some ([], (c :: rest).drop pat.length)
    else
      match splitFirst pat rest with
      | some (pre, post) => some (c :: pre, post)
      | none => none

/-- Chunk record built by `indexer._build_chunks` (the dict with keys
chunk_id, doc_id, text, page_num, section, word_start; also the shape of
`models.Chunk`). `page_num`/`section` are `Option` for Python `None`. -/
structure Chunk where
  chunk_id : String
  doc_id : String
  text : String
  page_num : Option Int
  «section» : Option String
  word_start : Nat
deriving Repr, DecidableEq

/-- indexer.CHUNK_WORDS. -/
def CHUNK_WORDS : Nat := 250

/-- indexer.OVERLAP_WORDS. -/
def OVERLAP_WORDS : Nat := 50

/-- Inner while-loop of `indexer._build_chunks` over one segment: starting
at word offset `start`, emit a chunk spanning `[start, min(start+250, N))`,
stop when the end reaches `N`, else advance `start` by `250 - 50`.
`n` is the position in the fresh-id supply (models the uuid4 draws). -/
def buildChunksAux (doc_id : String) (freshId : Nat → String) (page_num : Option Int)
    (sec : Option String) (words : List String) (n : Nat) (start : Nat) : List Chunk :=
  if h : start < words.length then
    let e := min (start + CHUNK_WORDS) words.length
    let c : Chunk :=
      { chunk_id := freshId n
        doc_id := doc_id
        text := " ".intercalate ((words.drop start).take (e - start))
        page_num := page_num
        «section» := sec
        word_start := start }
    if he : e = words.length then [c]
    else c :: buildChunksAux doc_id freshId page_num sec words (n + 1)
      (start + (CHUNK_WORDS - OVERLAP_WORDS))
  else []
termination_by words.length - start
decreasing_by simp only [CHUNK_WORDS, OVERLAP_WORDS] at *; omega

/-- A source segment as produced by the extractor: `(text, page_num, section)`. -/
abbrev Segment := String × Option Int × Option String

/-- Outer for-loop of `indexer._build_chunks`: chunk every segment in order
and concatenate, threading the fresh-id supply position `n`. -/
def buildLoop (doc_id : String) (freshId : Nat → String) : List Segment → Nat → List Chunk
  | [], _ => []
  | (text, page_num, sec) :: rest, n =>
    let cs := buildChunksAux doc_id freshId page_num sec (pyWords text) n 0
    cs ++ buildLoop doc_id freshId rest (n + cs.length)

/-- indexer._build_chunks. -/
def _build_chunks (doc_id : String) (freshId : Nat → String) (segments : List Segment) :
    List Chunk :=
  buildLoop doc_id freshId segments 0

/-- Chunks built from a single source segment (the per-segment behaviour the
chunking claims quantify over): `_build_chunks` on the one-element list. -/
def segmentChunks (doc_id : String) (freshId : Nat → String) (text : String)
    (page_num : Option Int) (sec : Option String) : List Chunk :=
  _build_chunks doc_id freshId [(text, page_num, sec)]

/-- indexer._doc_id: `hashlib.md5(str(filepath).encode()).hexdigest()[:12]`,
modelled as an opaque deterministic key derived from the path (the digest
computation itself is a library call; only determinism is load-bearing). -/
def _doc_id (filepath : String) : String := "md5:" ++ filepath

/-- indexer._tokenize: `text.lower().split()`. -/
def _tokenize (text : String) : List String := pyWordsAux (text.data.map Char.toLower) []

/-- The persisted index record (the JSON object written by `index_document`:
doc_id, filepath, chunks). -/
structure IndexRecord where
  doc_id : String
  filepath : String
  chunks : List Chunk
deriving Repr, DecidableEq

/-- The index directory `.doc_qa_index/`: one record per doc_id
(file `{doc_id}_chunks.json`), modelled as a lookup table. -/
abbrev Store := String → Option IndexRecord

/-- indexer.index_document: chunk all segments, persist the record under the
path-derived doc_id (overwriting any previous record for that key), and
return the doc_id together with the updated store. -/
def index_document (store : Store) (filepath : String) (freshId : Nat → String)
    (segments : List Segment) : String × Store :=
  let doc_id := _doc_id filepath
  let chunks := _build_chunks doc_id freshId segments
  (doc_id,
    fun key =>
      if key = doc_id then some { doc_id := doc_id, filepath := filepath, chunks := chunks }
      else store key)

/-- Error message raised by `load_index` for an unknown doc_id (the
`FileNotFoundError` text, quotes elided). -/
def noIndexMsg (doc_id : String) : String :=
  "No index found for doc_id " ++ doc_id ++ ". Run: python main.py index <filepath>"

/-- indexer.load_index: look up the persisted record; raise
`FileNotFoundError` when absent; otherwise return the chunk list together
with the tokenized corpus handed to the in-memory BM25 rebuild. -/
def load_index (store : Store) (doc_id : String) :
    Except String (List Chunk × List (List String)) :=
  match store doc_id with
  | none => .error (noIndexMsg doc_id)
  | some data => .ok (data.chunks, data.chunks.map (fun c => _tokenize c.text))

/-- Python `round(float(score), 4)`: round to the nearest multiple of
1/10000 (the tie-breaking convention of float rounding is immaterial to the
claims, which fix the scores). -/
def round4 (q : ℚ) : ℚ := (round (q * 10000) : ℤ) / 10000

/-- A retrieved chunk as returned by `retrieve`: the chunk dict with a
`score` key added. -/
structure ScoredChunk extends Chunk where
  score : ℚ
deriving Repr, DecidableEq

/-- Sort key of `sorted(zip(chunks, scores), key=lambda x: x[1], reverse=True)`:
descending by score. Python `sorted` is stable, which the insertion sort
below reproduces (a pair is inserted before the first already-placed pair
whose score is not larger, and later list elements are inserted first). -/
def descByScore (a b : Chunk × ℚ) : Prop := b.2 ≤ a.2

instance : DecidableRel descByScore := fun a b => inferInstanceAs (Decidable (b.2 ≤ a.2))

/-- retriever.retrieve: load the index, score every chunk against the
tokenized question (scores come from the external BM25 library, here the
parameter `getScores`), stably sort by descending score, truncate to
`top_k`, and annotate each chunk with its rounded score. -/
def retrieve (store : Store) (getScores : List (List String) → List String → List ℚ)
    (doc_id : String) (question : String) (top_k : Nat) :
    Except String (List ScoredChunk) :=
  match load_index store doc_id with
  | .error e => .error e
  | .ok (chunks, tokenized) =>
    let scores := getScores tokenized (_tokenize question)
    let scored := List.insertionSort descByScore (chunks.zip scores)
    .ok ((scored.take top_k).map (fun p => { toChunk := p.1, score := round4 p.2 }))

/-- Ordering taken from the specification text for the retrieval claim:
strictly higher score first, ties broken by the original index-build
position (the `Nat` tag). -/
def specLE (a b : Nat × (Chunk × ℚ)) : Prop :=
  b.2.2 < a.2.2 ∨ (a.2.2 = b.2.2 ∧ a.1 ≤ b.1)

instance : DecidableRel specLE := fun a b =>
  inferInstanceAs (Decidable (b.2.2 < a.2.2 ∨ (a.2.2 = b.2.2 ∧ a.1 ≤ b.1)))

/-- Modelled from the specification text: the chunks sorted by descending
score with ties broken by preserving the original index-build order,
truncated to the first `top_k`, each annotated with its rounded score.
Built by tagging each chunk with its index-build position and sorting by
the total order `specLE`. -/
def rankSpec (chunks : List Chunk) (scores : List ℚ) (top_k : Nat) : List ScoredChunk :=
  let tagged := (chunks.zip scores).enum
  let sortedTagged := List.insertionSort specLE tagged
  (((sortedTagged.map Prod.snd).take top_k).map (fun p => { toChunk := p.1, score := round4 p.2 }))

/-- JSON values as produced by `json.loads` (numbers as ℚ). -/
inductive Json where
  | null : Json
  | bool : Bool → Json
  | num : ℚ → Json
  | str : String → Json
  | arr : List Json → Json
  | obj : List (String × Json) → Json

/-- Skip whitespace, as the tokenizer of `json.loads` does between tokens. -/
def skipWs (cs : List Char) : List Char := cs.dropWhile isWs

/-- Numeric value of a digit run. -/
def digitsVal (ds : List Char) : Nat := ds.foldl (fun a c => a * 10 + (c.toNat - 48)) 0

/-- Assemble a JSON number from sign, integer digits, fraction digits and
exponent. -/
def mkNum (neg : Bool) (intDigs fracDigs : List Char) (expNeg : Bool) (e : Nat) : ℚ :=
  let mant : ℚ := (digitsVal intDigs : ℚ) + (digitsVal fracDigs : ℚ) / ((10 : ℚ) ^ fracDigs.length)
  let base := if neg then -mant else mant
  if expNeg then base / ((10 : ℚ) ^ e) else base * ((10 : ℚ) ^ e)

/-- Parse the optional exponent part of a JSON number and finish it. -/
def finishNumber (neg : Bool) (intDigs fracDigs : List Char) (cs : List Char) :
    Except String (Json × List Char) :=
  match cs with
  | c :: t =>
    if c = 'e' ∨ c = 'E' then
      let esign := match t with
        | '-' :: _ => true
        | _ => false
      let t1 := match t with
        | '+' :: u => u
        | '-' :: u => u
        | _ => t
      let expDigs := t1.takeWhile Char.isDigit
      let t2 := t1.dropWhile Char.isDigit
      if expDigs.isEmpty then .error "json: expected exponent digits"
      else .ok (.num (mkNum neg intDigs fracDigs esign (digitsVal expDigs)), t2)
    else .ok (.num (mkNum neg intDigs fracDigs false 0), cs)
  | [] => .ok (.num (mkNum neg intDigs fracDigs false 0), [])

/-- Parse a JSON number (sign, integer part, optional fraction, optional
exponent). Leading-zero rejection of `json.loads` is not modelled. -/
def parseNumber (cs : List Char) : Except String (Json × List Char) :=
  let neg := match cs with
    | '-' :: _ => true
    | _ => false
  let cs1 := match cs with
    | '-' :: t => t
    | _ => cs
  let intDigs := cs1.takeWhile Char.isDigit
  let cs2 := cs1.dropWhile Char.isDigit
  if intDigs.isEmpty then .error "json: expecting value"
  else
    match cs2 with
    | '.' :: t =>
      let fracDigs := t.takeWhile Char.isDigit
      let cs3 := t.dropWhile Char.isDigit
      if fracDigs.isEmpty then .error "json: expected digits after decimal point"
      else finishNumber neg intDigs fracDigs cs3
    | _ => finishNumber neg intDigs [] cs2

/-- Parse the body of a JSON string after the opening quote, accumulating
decoded characters (reversed) in `acc`. The `uXXXX` escapes of `json.loads`
are not modelled. -/
def parseStringBody : List Char → List Char → Except String (String × List Char)
  | [], _ => .error "json: unterminated string"
  | '"' :: rest, acc => .ok (String.mk acc.reverse, rest)
  | '\\' :: rest, acc =>
    match rest with
    | [] => .error "json: unterminated string"
    | e :: rest2 =>
      if e = '"' ∨ e = '\\' ∨ e = '/' then parseStringBody rest2 (e :: acc)
      else if e = 'n' then parseStringBody rest2 ('\n' :: acc)
      else if e = 't' then parseStringBody rest2 ('\t' :: acc)
      else if e = 'r' then parseStringBody rest2 ('\r' :: acc)
      else if e = 'b' then parseStringBody rest2 (Char.ofNat 8 :: acc)
      else if e = 'f' then parseStringBody rest2 (Char.ofNat 12 :: acc)
      else .error "json: unsupported escape"
  | c :: rest, acc => parseStringBody rest (c :: acc)

mutual

/-- Parse one JSON value; `fuel` bounds the recursion (chosen larger than
the input length by the caller, so it never runs out on real input). -/
def parseVal : Nat → List Char → Except String (Json × List Char)
  | 0, _ => .error "json: input too deeply nested"
  | fuel + 1, cs0 =>
    let cs := skipWs cs0
    if "null".data.isPrefixOf cs then .ok (.null, cs.drop 4)
    else if "true".data.isPrefixOf cs then .ok (.bool true, cs.drop 4)
    else if "false".data.isPrefixOf cs then .ok (.bool false, cs.drop 5)
    else
      match cs with
      | '"' :: rest =>
        match parseStringBody rest [] with
        | .ok (s, rest2) => .ok (.str s, rest2)
        | .error e => .error e
      | '[' :: rest => parseArrElems fuel rest
      | '{' :: rest => parseObjMembers fuel rest
      | c :: _ =>
        if c = '-' ∨ c.isDigit then parseNumber cs else .error "json: expecting value"
      | [] => .error "json: expecting value"

/-- Parse the elements of a JSON array after the opening bracket. -/
def parseArrElems : Nat → List Char → Except String (Json × List Char)
  | 0, _ => .error "json: input too deeply nested"
  | fuel + 1, cs =>
    match skipWs cs with
    | ']' :: rest => .ok (.arr [], rest)
    | cs2 =>
      match parseVal fuel cs2 with
      | .error e => .error e
      | .ok (v, rest) => parseArrTail fuel rest [v]

/-- Parse the continuation of a JSON array after at least one element. -/
def parseArrTail : Nat → List Char → List Json → Except String (Json × List Char)
  | 0, _, _ => .error "json: input too deeply nested"
  | fuel + 1, cs, acc =>
    match skipWs cs with
    | ',' :: rest =>
      match parseVal fuel rest with
      | .error e => .error e
      | .ok (v, rest2) => parseArrTail fuel rest2 (acc ++ [v])
    | ']' :: rest => .ok (.arr acc, rest)
    | _ => .error "json: expected comma or close bracket"

/-- Parse the members of a JSON object after the opening brace. -/
def parseObjMembers : Nat → List Char → Except String (Json × List Char)
  | 0, _ => .error "json: input too deeply nested"
  | fuel + 1, cs =>
    match skipWs cs with
    | '}' :: rest => .ok (.obj [], rest)
    | cs2 => parseMember fuel cs2 []

/-- Parse one `"key": value` member and continue the object. -/
def parseMember : Nat → List Char → List (String × Json) →
    Except String (Json × List Char)
  | 0, _, _ => .error "json: input too deeply nested"
  | fuel + 1, cs, acc =>
    match skipWs cs with
    | '"' :: rest =>
      match parseStringBody rest [] with
      | .error e => .error e
      | .ok (k, rest2) =>
        match skipWs rest2 with
        | ':' :: rest3 =>
          match parseVal fuel rest3 with
          | .error e => .error e
          | .ok (v, rest4) => parseObjTail fuel rest4 (acc ++ [(k, v)])
        | _ => .error "json: expected colon"
    | _ => .error "json: expected property name"

/-- Parse the continuation of a JSON object after at least one member. -/
def parseObjTail : Nat → List Char → List (String × Json) →
    Except String (Json × List Char)
  | 0, _, _ => .error "json: input too deeply nested"
  | fuel + 1, cs, acc =>
    match skipWs cs with
    | ',' :: rest => parseMember fuel rest acc
    | '}' :: rest => .ok (.obj acc, rest)
    | _ => .error "json: expected comma or close brace"

end

/-- The fence marker string of composer._parse_json (json variant). -/
def jsonFenceChars : List Char := "```json".data

/-- The plain fence marker string of composer._parse_json. -/
def fenceChars : List Char := "```".data

/-- composer._parse_json: strip a known fenced code block when present, then
strict `json.loads` on the stripped text (a parse failure is a raised
exception, i.e. `Except.error`). -/
def _parse_json (text : String) : Except String Json :=
  let cs := text.data
  let body :=
    match splitFirst jsonFenceChars cs with
    | some (_, post) =>
      (match splitFirst fenceChars post with
       | some (pre, _) => pre
       | none => post)
    | none =>
      match splitFirst fenceChars cs with
      | some (_, post) =>
        (match splitFirst fenceChars post with
         | some (pre, _) => pre
         | none => post)
      | none => cs
  let cs2 := stripChars body
  match parseVal (cs2.length + 1) cs2 with
  | .error e => .error e
  | .ok (v, rest) => if skipWs rest = [] then .ok v else .error "json: extra data"

/-- Python `dict(...).get(key, dflt)` on the dict built by `json.loads` from
an object literal: later duplicate keys win, hence the reversed lookup. -/
def pyDictGet (ms : List (String × Json)) (key : String) (dflt : Json) : Json :=
  match List.lookup key ms.reverse with
  | some v => v
  | none => dflt

/-- Python truthiness (`bool(x)` / `not x`) of a JSON value. -/
def pyTruthy : Json → Bool
  | .null => false
  | .bool b => b
  | .num q => if q = 0 then false else true
  | .str s => if s = "" then false else true
  | .arr l => !l.isEmpty
  | .obj m => !m.isEmpty

/-- The dict returned by composer.compose_answer. `found`, `answer` and
`citations` are whatever JSON values the response carried (or the defaults),
exactly as in the source; `fallback` is a Python `not`, hence a Bool. -/
structure PyQAResult where
  question : String
  doc_id : String
  found : Json
  answer : Json
  citations : Json
  retrieved_chunk_ids : List String
  fallback : Bool

/-- composer.compose_answer, with the backend call modelled by the response
text `raw` (`response.content[0].text`). The source strips the text, parses
it with `_parse_json` (no try/except around the call), then assembles the
result dict via `data.get` with defaults; `data.get` on a non-dict raises
`AttributeError`. -/
def compose_answer (question : String) (chunks : List Chunk) (doc_id : String)
    (raw : String) : Except String PyQAResult :=
  let raw2 := String.mk (stripChars raw.data)
  match _parse_json raw2 with
  | .error e => .error e
  | .ok data =>
    match data with
    | .obj ms =>
      .ok
        { question := question
          doc_id := doc_id
          found := pyDictGet ms "found" (.bool false)
          answer := pyDictGet ms "answer" (.str "")
          citations := pyDictGet ms "citations" (.arr [])
          retrieved_chunk_ids := chunks.map Chunk.chunk_id
          fallback := ! pyTruthy (pyDictGet ms "found" (.bool true)) }
    | _ => .error "AttributeError: response JSON is not an object"

/-- The fixed refusal text of the system prompt (codepoint 39 is the
apostrophe). -/
def refusalText : String :=
  "I can" ++ String.mk [Char.ofNat 39] ++ "t find this in the document."

/-- Location label of composer._build_user_message: parts are appended only
when the corresponding value is Python-truthy (so page 0 and an empty
section string are dropped), and an empty join falls back to the literal
"Location unknown". -/
def _loc (chunk : Chunk) : String :=
  let parts : List String :=
    (match chunk.page_num with
     | some n => if n = 0 then [] else ["Page " ++ toString n]
     | none => []) ++
    (match chunk.«section» with
     | some s => if s = "" then [] else ["Section: " ++ s]
     | none => [])
  let joined := String.intercalate " | " parts
  if joined = "" then "Location unknown" else joined

/-- composer._build_user_message: the question followed by each retrieved
passage labeled with its 1-based position, chunk_id and location. -/
def _build_user_message (question : String) (chunks : List Chunk) : String :=
  let passages := chunks.enum.map (fun p =>
    "[Passage " ++ toString (p.1 + 1) ++ " | chunk_id: " ++ p.2.chunk_id ++ " | " ++
      _loc p.2 ++ "]\n" ++ p.2.text)
  let passages_block := String.intercalate "\n\n" passages
  "Question: " ++ question ++ "\n\n" ++ "---\n\n" ++
    "Passages retrieved from the document:\n\n" ++ passages_block ++ "\n\n" ++
    "---\n\n" ++ "Answer the question using ONLY these passages. Return valid JSON."

/-- Word-offset skeleton of the chunking loop: the sequence of `word_start`
offsets emitted by `buildChunksAux` over a segment of `N` words. -/
def chunkStarts (N : Nat) (start : Nat) : List Nat :=
  if start < N then
    if min (start + CHUNK_WORDS) N = N then [start]
    else start :: chunkStarts N (start + (CHUNK_WORDS - OVERLAP_WORDS))
  else []
termination_by N - start
decreasing_by simp only [CHUNK_WORDS, OVERLAP_WORDS] at *; omega

/-- Concrete chunk used by witnesses and counterexamples. -/
def cA : Chunk :=
  { chunk_id := "abc", doc_id := "d", text := "alpha beta gamma",
    page_num := some 2, «section» := some "Intro", word_start := 0 }

/-- Concrete backend response whose citation names a chunk_id outside the
retrieved set. -/
def rawC3 : String := "\x7b\"citations\": [\x7b\"chunk_id\": \"zzz\"\x7d]\x7d"

/-- Concrete backend response with found false and a non-refusal answer. -/
def rawC7 : String := "\x7b\"found\": false, \"answer\": \"Nope.\"\x7d"

/-- Result of `compose_answer "q" [] "d"` on the empty-object response. -/
def r0 : PyQAResult :=
  { question := "q", doc_id := "d", found := .bool false, answer := .str "",
    citations := .arr [], retrieved_chunk_ids := [], fallback := false }

/-- Result of `compose_answer "q" [cA] "d"` on the empty-object response. -/
def r0A : PyQAResult :=
  { question := "q", doc_id := "d", found := .bool false, answer := .str "",
    citations := .arr [], retrieved_chunk_ids := ["abc"], fallback := false }

/-- Concrete chunks, record, store and scorer used by the retrieval witness. -/
def cW1 : Chunk :=
  { chunk_id := "c1", doc_id := "docW", text := "alpha beta", page_num := none,
    «section» := none, word_start := 0 }

/-- Second concrete chunk of the retrieval witness (ties with the first). -/
def cW2 : Chunk :=
  { chunk_id := "c2", doc_id := "docW", text := "gamma delta", page_num := none,
    «section» := none, word_start := 200 }

/-- Concrete persisted record of the retrieval witness. -/
def recW : IndexRecord := { doc_id := "docW", filepath := "f.txt", chunks := [cW1, cW2] }

/-- Concrete store of the retrieval witness. -/
def storeW : Store := fun key => if key = "docW" then some recW else none

/-- Concrete scorer of the retrieval witness: all scores equal, so the
tie-break order is exercised. -/
def gsW : List (List String) → List String → List ℚ := fun _ _ => [1, 1]

/-!
Theorems. Shared helper lemmas come first, then one theorem per claim
(with its witness or counterexample).
-/

/-- Chunking a single segment is the inner loop started at offset 0. -/
theorem segmentChunks_eq (d : String) (f : Nat → String) (t : String) (p : Option Int)
    (s : Option String) :
    segmentChunks d f t p s = buildChunksAux d f p s (pyWords t) 0 0 := by
  simp [segmentChunks, _build_chunks, buildLoop]

/-- The word_start offsets emitted by the chunking loop are exactly the
arithmetic skeleton `chunkStarts`. -/
theorem buildChunksAux_map_word_start (d : String) (f : Nat → String) (p : Option Int)
    (s : Option String) (words : List String) :
    ∀ n start, (buildChunksAux d f p s words n start).map Chunk.word_start
      = chunkStarts words.length start := by
  intro n start
  induction n, start using buildChunksAux.induct d f p s words with
  | case1 n start h1 e he =>
    have he2 : (start + CHUNK_WORDS) ⊓ words.length = words.length := he
    rw [buildChunksAux, chunkStarts, dif_pos h1, if_pos h1]
    simp only []
    rw [dif_pos he2, if_pos he2]
    rfl
  | case2 n start h1 e he ih =>
    have he2 : ¬ (start + CHUNK_WORDS) ⊓ words.length = words.length := he
    rw [buildChunksAux, chunkStarts, dif_pos h1, if_pos h1]
    simp only []
    rw [dif_neg he2, if_neg he2, List.map_cons, ih]
  | case3 n start h1 =>
    rw [buildChunksAux, chunkStarts, dif_neg h1, if_neg h1]
    rfl

/-- Every chunk emitted by the chunking loop records an in-range offset and
carries exactly the words of its span `[word_start, min(word_start+W, N))`. -/
theorem buildChunksAux_text (d : String) (f : Nat → String) (p : Option Int)
    (s : Option String) (words : List String) :
    ∀ n start, ∀ c ∈ buildChunksAux d f p s words n start,
      c.word_start < words.length ∧
      c.text = " ".intercalate ((words.drop c.word_start).take
        (min (c.word_start + CHUNK_WORDS) words.length - c.word_start)) := by
  intro n start
  induction n, start using buildChunksAux.induct d f p s words with
  | case1 n start h1 e he =>
    intro c hc
    have he2 : (start + CHUNK_WORDS) ⊓ words.length = words.length := he
    rw [buildChunksAux, dif_pos h1] at hc
    simp only [] at hc
    rw [dif_pos he2, List.mem_singleton] at hc
    subst hc
    exact ⟨h1, rfl⟩
  | case2 n start h1 e he ih =>
    intro c hc
    have he2 : ¬ (start + CHUNK_WORDS) ⊓ words.length = words.length := he
    rw [buildChunksAux, dif_pos h1] at hc
    simp only [] at hc
    rw [dif_neg he2, List.mem_cons] at hc
    rcases hc with rfl | hc
    · exact ⟨h1, rfl⟩
    · exact ih c hc
  | case3 n start h1 =>
    intro c hc
    rw [buildChunksAux, dif_neg h1] at hc
    simp at hc

/-- chunkStarts is empty at or past the end of the segment. -/
theorem chunkStarts_nil (N start : Nat) (h : N ≤ start) : chunkStarts N start = [] := by
  rw [chunkStarts, if_neg (by omega)]

/-- chunkStarts begins with its start offset while inside the segment. -/
theorem chunkStarts_cons (N start : Nat) (h : start < N) :
    ∃ t, chunkStarts N start = start :: t := by
  rw [chunkStarts, if_pos h]
  by_cases he : min (start + CHUNK_WORDS) N = N
  · exact ⟨[], by rw [if_pos he]⟩
  · exact ⟨_, by rw [if_neg he]⟩

/-- Consecutive offsets advance by exactly the step, and every non-final
offset leaves more than a full window before the end. -/
theorem chunkStarts_chain (N : Nat) : ∀ start,
    List.Chain' (fun a b => b = a + (CHUNK_WORDS - OVERLAP_WORDS) ∧ a + CHUNK_WORDS < N)
      (chunkStarts N start) := by
  intro start
  induction start using chunkStarts.induct N with
  | case1 x hlt he =>
    rw [chunkStarts, if_pos hlt, if_pos he]
    exact List.chain'_singleton x
  | case2 x hlt he ih =>
    rw [chunkStarts, if_pos hlt, if_neg he]
    obtain ⟨t, ht⟩ := chunkStarts_cons N (x + (CHUNK_WORDS - OVERLAP_WORDS))
      (by simp only [CHUNK_WORDS, OVERLAP_WORDS] at *; omega)
    rw [ht]
    rw [ht] at ih
    exact List.Chain'.cons ⟨rfl, by omega⟩ ih
  | case3 x hge =>
    rw [chunkStarts, if_neg hge]
    exact List.chain'_nil

/-- The final offset is within the segment and its window reaches the end. -/
theorem chunkStarts_getLast (N : Nat) : ∀ start, start < N →
    ∃ l, (chunkStarts N start).getLast? = some l ∧ N ≤ l + CHUNK_WORDS ∧ l < N := by
  intro start
  induction start using chunkStarts.induct N with
  | case1 x hlt he =>
    intro _
    refine ⟨x, ?_, by omega, hlt⟩
    rw [chunkStarts, if_pos hlt, if_pos he]
    rfl
  | case2 x hlt he ih =>
    intro _
    obtain ⟨l, hl, h1, h2⟩ := ih (by simp only [CHUNK_WORDS, OVERLAP_WORDS] at *; omega)
    obtain ⟨t, ht⟩ := chunkStarts_cons N (x + (CHUNK_WORDS - OVERLAP_WORDS))
      (by simp only [CHUNK_WORDS, OVERLAP_WORDS] at *; omega)
    refine ⟨l, ?_, h1, h2⟩
    rw [chunkStarts, if_pos hlt, if_neg he, ht, List.getLast?_cons_cons, ← ht, hl]
  | case3 x hge =>
    intro hx
    omega

/-- Every word index from `start` to the end of the segment is inside the
window of some emitted offset. -/
theorem chunkStarts_cover (N : Nat) : ∀ start, start < N → ∀ j, start ≤ j → j < N →
    ∃ s ∈ chunkStarts N start, s ≤ j ∧ j < min (s + CHUNK_WORDS) N := by
  intro start
  induction start using chunkStarts.induct N with
  | case1 x hlt he =>
    intro _ j hj1 hj2
    refine ⟨x, ?_, hj1, by omega⟩
    rw [chunkStarts, if_pos hlt, if_pos he]
    exact List.mem_singleton_self x
  | case2 x hlt he ih =>
    intro _ j hj1 hj2
    rw [chunkStarts, if_pos hlt, if_neg he]
    by_cases hj : j < x + CHUNK_WORDS
    · exact ⟨x, List.mem_cons_self _ _, hj1, by omega⟩
    · obtain ⟨s, hs, hs1, hs2⟩ := ih (by simp only [CHUNK_WORDS, OVERLAP_WORDS] at *; omega)
        j (by simp only [CHUNK_WORDS, OVERLAP_WORDS] at *; omega) hj2
      exact ⟨s, List.mem_cons_of_mem _ hs, hs1, hs2⟩
  | case3 x hge =>
    intro hx
    omega

/-- Claim C4: for every segment chunked with window W = 250 and overlap
O = 50 (so step W − O = 200), the emitted chunks start at offset 0, each
carries exactly the words of its span `[start, min(start+W, N))`, offsets
advance by W − O, every non-final chunk has length exactly W and ends
strictly before N, consecutive chunks overlap in exactly the O word indices
`[b.start, b.start + O)`, emission stops exactly when a window reaches N,
the final chunk is never empty, the chunks cover every word index of
`[0, N)`, and a zero-word segment yields no chunks. -/
theorem chunking_window_c4 (d : String) (f : Nat → String) (text : String)
    (p : Option Int) (s : Option String) :
    ((pyWords text).length = 0 → segmentChunks d f text p s = []) ∧
    (1 ≤ (pyWords text).length →
      (segmentChunks d f text p s).head?.map Chunk.word_start = some 0) ∧
    (∀ c ∈ segmentChunks d f text p s,
      c.word_start < (pyWords text).length ∧
      1 ≤ min (c.word_start + CHUNK_WORDS) (pyWords text).length - c.word_start ∧
      c.text = " ".intercalate (((pyWords text).drop c.word_start).take
        (min (c.word_start + CHUNK_WORDS) (pyWords text).length - c.word_start))) ∧
    List.Chain' (fun a b =>
      b.word_start = a.word_start + (CHUNK_WORDS - OVERLAP_WORDS) ∧
      a.word_start + CHUNK_WORDS < (pyWords text).length ∧
      min (a.word_start + CHUNK_WORDS) (pyWords text).length - a.word_start = CHUNK_WORDS ∧
      (∀ j, ((a.word_start ≤ j ∧ j < min (a.word_start + CHUNK_WORDS) (pyWords text).length) ∧
             (b.word_start ≤ j ∧ j < min (b.word_start + CHUNK_WORDS) (pyWords text).length)) ↔
            (b.word_start ≤ j ∧ j < b.word_start + OVERLAP_WORDS)))
      (segmentChunks d f text p s) ∧
    (∀ c, (segmentChunks d f text p s).getLast? = some c →
      (pyWords text).length ≤ c.word_start + CHUNK_WORDS ∧
      c.word_start < (pyWords text).length) ∧
    (∀ j, j < (pyWords text).length →
      ∃ c ∈ segmentChunks d f text p s,
        c.word_start ≤ j ∧ j < min (c.word_start + CHUNK_WORDS) (pyWords text).length) := by
  have hmap : (segmentChunks d f text p s).map Chunk.word_start
      = chunkStarts (pyWords text).length 0 := by
    rw [segmentChunks_eq, buildChunksAux_map_word_start]
  refine ⟨?_, ?_, ?_, ?_, ?_, ?_⟩
  · intro h0
    have : (segmentChunks d f text p s).map Chunk.word_start = [] := by
      rw [hmap, chunkStarts_nil _ _ (by omega)]
    exact List.map_eq_nil_iff.mp this
  · intro h1
    obtain ⟨t, ht⟩ := chunkStarts_cons (pyWords text).length 0 (by omega)
    have := List.head?_map Chunk.word_start (segmentChunks d f text p s)
    rw [hmap, ht] at this
    exact this.symm
  · intro c hc
    have h := buildChunksAux_text d f p s (pyWords text) 0 0 c (by rwa [← segmentChunks_eq])
    exact ⟨h.1, by simp only [CHUNK_WORDS] at *; omega, h.2⟩
  · have hch := chunkStarts_chain (pyWords text).length 0
    rw [← hmap] at hch
    have hch2 := (List.chain'_map Chunk.word_start).mp hch
    refine List.Chain'.imp ?_ hch2
    intro a b hab
    refine ⟨hab.1, hab.2, by simp only [CHUNK_WORDS] at *; omega, ?_⟩
    intro j
    constructor
    · intro hj
      simp only [CHUNK_WORDS, OVERLAP_WORDS] at *
      omega
    · intro hj
      simp only [CHUNK_WORDS, OVERLAP_WORDS] at *
      omega
  · intro c hc
    by_cases h1 : 0 < (pyWords text).length
    · obtain ⟨l, hl, hl1, hl2⟩ := chunkStarts_getLast (pyWords text).length 0 h1
      rw [← hmap, List.getLast?_map, hc] at hl
      have : c.word_start = l := by simpa using hl
      omega
    · have : (segmentChunks d f text p s).map Chunk.word_start = [] := by
        rw [hmap, chunkStarts_nil _ _ (by omega)]
      have hnil : segmentChunks d f text p s = [] := List.map_eq_nil_iff.mp this
      rw [hnil] at hc
      simp at hc
  · intro j hj
    obtain ⟨s', hs', h1, h2⟩ := chunkStarts_cover (pyWords text).length 0 (by omega) j
      (by omega) hj
    rw [← hmap] at hs'
    obtain ⟨c, hc, hcs⟩ := List.mem_map.mp hs'
    exact ⟨c, hc, by omega, by rw [hcs]; exact h2⟩

/-- Witness for C4 at the concrete three-word segment "a b c". -/
theorem chunking_window_c4_witness :
    1 ≤ (pyWords "a b c").length ∧
    (segmentChunks "d" (fun _ => "id") "a b c" none none).head?.map Chunk.word_start
      = some 0 :=
  ⟨by decide,
   (chunking_window_c4 "d" (fun _ => "id") "a b c" none none).2.1 (by decide)⟩

/-- The tag-aware order agrees with the score order when the inserted
element carries the strictly smallest tag. -/
theorem specLE_iff_descByScore (a b : Nat × (Chunk × ℚ)) (h : a.1 ≤ b.1) :
    specLE a b ↔ descByScore a.2 b.2 := by
  unfold specLE descByScore
  constructor
  · rintro (h1 | ⟨h1, _⟩)
    · exact le_of_lt h1
    · exact le_of_eq h1.symm
  · intro hle
    rcases lt_or_eq_of_le hle with h1 | h1
    · exact Or.inl h1
    · exact Or.inr ⟨h1.symm, h⟩

/-- Erasing tags commutes with ordered insertion when the inserted element
carries a tag smaller than every tag already present. -/
theorem map_snd_orderedInsert (a : Nat × (Chunk × ℚ)) :
    ∀ (m : List (Nat × (Chunk × ℚ))), (∀ b ∈ m, a.1 < b.1) →
    (List.orderedInsert specLE a m).map Prod.snd
      = List.orderedInsert descByScore a.2 (m.map Prod.snd) := by
  intro m
  induction m with
  | nil => intro _; rfl
  | cons b t ih =>
    intro h
    have hab : specLE a b ↔ descByScore a.2 b.2 :=
      specLE_iff_descByScore a b (le_of_lt (h b (List.mem_cons_self b t)))
    by_cases hc : descByScore a.2 b.2
    · rw [List.map_cons, List.orderedInsert, List.orderedInsert,
        if_pos (hab.mpr hc), if_pos hc]
      simp
    · rw [List.map_cons, List.orderedInsert, List.orderedInsert,
        if_neg (fun hs => hc (hab.mp hs)), if_neg hc, List.map_cons,
        ih (fun x hx => h x (List.mem_cons_of_mem b hx))]

/-- Erasing tags turns the tagged lexicographic sort into the untagged
stable score sort, provided the tags are strictly increasing. -/
theorem map_snd_insertionSort :
    ∀ (l : List (Nat × (Chunk × ℚ))), l.Pairwise (fun x y => x.1 < y.1) →
    (List.insertionSort specLE l).map Prod.snd
      = List.insertionSort descByScore (l.map Prod.snd) := by
  intro l
  induction l with
  | nil => intro _; rfl
  | cons a t ih =>
    intro hp
    rw [List.map_cons, List.insertionSort, List.insertionSort,
      map_snd_orderedInsert a _
        (fun b hb => (List.pairwise_cons.mp hp).1 b ((List.mem_insertionSort specLE).mp hb)),
      ih (List.pairwise_cons.mp hp).2]

/-- Tags produced by enumFrom are bounded below by the start tag. -/
theorem enumFrom_fst_le {α : Type} :
    ∀ (l : List α) (n : Nat) (b : Nat × α), b ∈ List.enumFrom n l → n ≤ b.1 := by
  intro l
  induction l with
  | nil => intro n b hb; simp [List.enumFrom] at hb
  | cons a t ih =>
    intro n b hb
    rw [List.enumFrom, List.mem_cons] at hb
    rcases hb with rfl | hb
    · exact le_refl n
    · exact le_of_lt (lt_of_lt_of_le (Nat.lt_succ_self n) (ih (n + 1) b hb))

/-- Tags produced by enumFrom are strictly increasing. -/
theorem enumFrom_pairwise {α : Type} :
    ∀ (l : List α) (n : Nat), (List.enumFrom n l).Pairwise (fun x y => x.1 < y.1) := by
  intro l
  induction l with
  | nil => intro n; simp [List.enumFrom]
  | cons a t ih =>
    intro n
    rw [List.enumFrom, List.pairwise_cons]
    exact ⟨fun b hb => lt_of_lt_of_le (Nat.lt_succ_self n) (enumFrom_fst_le t (n + 1) b hb),
      ih (n + 1)⟩

/-- Claim C5: for a fixed persisted index and fixed scores, `retrieve`
returns exactly the chunks sorted by descending score with ties broken by
the original index-build order (`rankSpec`, the specification ordering),
truncated to the first `top_k` and annotated with the rounded score; and
two runs on the same inputs return identical results. -/
theorem retrieve_sorted_stable_c5 (store : Store)
    (getScores : List (List String) → List String → List ℚ)
    (doc_id question : String) (top_k : Nat) (rec : IndexRecord)
    (h : store doc_id = some rec) :
    retrieve store getScores doc_id question top_k =
      .ok (rankSpec rec.chunks
        (getScores (rec.chunks.map (fun c => _tokenize c.text)) (_tokenize question))
        top_k) ∧
    retrieve store getScores doc_id question top_k
      = retrieve store getScores doc_id question top_k := by
  constructor
  · have hl : load_index store doc_id
        = .ok (rec.chunks, rec.chunks.map (fun c => _tokenize c.text)) := by
      unfold load_index
      rw [h]
    unfold retrieve rankSpec
    rw [hl]
    simp only [Except.ok.injEq]
    rw [List.enum, map_snd_insertionSort _ (enumFrom_pairwise _ 0)]
    rw [show List.map Prod.snd (List.enumFrom 0 (rec.chunks.zip
      (getScores (rec.chunks.map (fun c => _tokenize c.text)) (_tokenize question))))
      = rec.chunks.zip (getScores (rec.chunks.map (fun c => _tokenize c.text))
        (_tokenize question)) from List.enum_map_snd _]
  · rfl

/-- Witness for C5 at a concrete two-chunk store with tied scores. -/
theorem retrieve_sorted_stable_c5_witness :
    retrieve storeW gsW "docW" "q" 2 =
      .ok (rankSpec recW.chunks
        (gsW (recW.chunks.map (fun c => _tokenize c.text)) (_tokenize "q")) 2) ∧
    retrieve storeW gsW "docW" "q" 2 = retrieve storeW gsW "docW" "q" 2 :=
  retrieve_sorted_stable_c5 storeW gsW "docW" "q" 2 recW rfl

/-- Claim C6: loading an unknown doc_id raises a not-found error (and so
does `retrieve`, which loads first); it never returns a result, in
particular never an empty chunk list. -/
theorem load_unknown_doc_c6 (store : Store) (doc_id : String) (h : store doc_id = none) :
    load_index store doc_id = .error (noIndexMsg doc_id) ∧
    (∀ res, load_index store doc_id ≠ .ok res) ∧
    (∀ getScores question top_k,
      retrieve store getScores doc_id question top_k = .error (noIndexMsg doc_id)) := by
  have hl : load_index store doc_id = .error (noIndexMsg doc_id) := by
    unfold load_index
    rw [h]
  refine ⟨hl, ?_, ?_⟩
  · intro res hres
    rw [hl] at hres
    exact absurd hres (by simp)
  · intro getScores question top_k
    unfold retrieve
    rw [hl]

/-- Witness for C6 at the empty store. -/
theorem load_unknown_doc_c6_witness :
    load_index (fun _ => none) "nope" = .error (noIndexMsg "nope") ∧
    (∀ res, load_index (fun _ => none) "nope" ≠ .ok res) ∧
    (∀ getScores question top_k,
      retrieve (fun _ => none) getScores "nope" question top_k
        = .error (noIndexMsg "nope")) :=
  load_unknown_doc_c6 (fun _ => none) "nope" rfl

/-- Claim C8: building an index from segments and then loading it for the
returned doc_id yields exactly the chunk list that was built and persisted,
in content and order (together with its tokenization). -/
theorem index_then_load_c8 (store : Store) (filepath : String) (freshId : Nat → String)
    (segments : List Segment) :
    load_index (index_document store filepath freshId segments).2
        (index_document store filepath freshId segments).1
      = .ok (_build_chunks (_doc_id filepath) freshId segments,
             (_build_chunks (_doc_id filepath) freshId segments).map
               (fun c => _tokenize c.text)) := by
  unfold index_document load_index
  simp

/-- Inversion for compose_answer: a successful result means the (stripped)
response parsed as a JSON object, and pins every field of the result. -/
theorem compose_answer_ok_inv (question doc_id raw : String) (chunks : List Chunk)
    (r : PyQAResult) (h : compose_answer question chunks doc_id raw = .ok r) :
    ∃ ms, _parse_json (String.mk (stripChars raw.data)) = .ok (.obj ms) ∧
      r = { question := question, doc_id := doc_id,
            found := pyDictGet ms "found" (.bool false),
            answer := pyDictGet ms "answer" (.str ""),
            citations := pyDictGet ms "citations" (.arr []),
            retrieved_chunk_ids := chunks.map Chunk.chunk_id,
            fallback := ! pyTruthy (pyDictGet ms "found" (.bool true)) } := by
  unfold compose_answer at h
  simp only [] at h
  cases hp : _parse_json (String.mk (stripChars raw.data)) with
  | error e =>
    rw [hp] at h
    exact absurd h (by simp)
  | ok data =>
    rw [hp] at h
    cases data with
    | obj ms =>
      simp only [Except.ok.injEq] at h
      exact ⟨ms, rfl, h.symm⟩
    | null => exact absurd h (by simp)
    | bool b => exact absurd h (by simp)
    | num q => exact absurd h (by simp)
    | str s => exact absurd h (by simp)
    | arr l => exact absurd h (by simp)

/-- A parse failure of the response text propagates out of compose_answer
unchanged (there is no try/except around the `_parse_json` call). -/
theorem compose_answer_error_inv (question doc_id raw e : String) (chunks : List Chunk)
    (h : _parse_json (String.mk (stripChars raw.data)) = .error e) :
    compose_answer question chunks doc_id raw = .error e := by
  unfold compose_answer
  simp only []
  rw [h]

/-- Claim C1 (code bug evaluation): on the response text consisting of an
empty JSON object (so the `found` key is missing), compose_answer returns a
result whose `found` is falsy while `fallback` is also false — the two
`data.get("found", ...)` calls use different defaults, so `fallback` is not
the negation of the defaulted `found` as the claim (and models.py, which
documents `fallback` as mirroring `not found`) requires. -/
theorem compose_answer_missing_found_c1 :
    ∃ r, compose_answer "q" [] "d" "\x7b\x7d" = .ok r ∧
      pyTruthy r.found = false ∧ r.fallback = false ∧
      r.fallback ≠ (! pyTruthy r.found) := by
  refine ⟨_, rfl, rfl, rfl, by decide⟩

/-- Counterexample for C2: a response text that is not JSON at all makes
compose_answer raise (return an error), never a defaulted result. -/
theorem compose_answer_c2_counterexample :
    ∃ e, compose_answer "q" [] "d" "hello" = .error e ∧
      (∀ r, compose_answer "q" [] "d" "hello" ≠ .ok r) := by
  refine ⟨"json: expecting value", rfl, ?_⟩
  intro r hr
  have : (Except.error "json: expecting value" : Except String PyQAResult) = .ok r := by
    rw [← hr]
    rfl
  exact absurd this (by simp)

/-- Claim C2 as amended: when the (stripped) response parses as a JSON
object, compose_answer succeeds and defaults every missing field (`found`
to false, `answer` to the empty string, `citations` to the empty list);
but when parsing fails, the parse error propagates to the caller. -/
theorem compose_answer_defaults_c2 (question doc_id raw : String) (chunks : List Chunk) :
    (∀ ms, _parse_json (String.mk (stripChars raw.data)) = .ok (.obj ms) →
      ∃ r, compose_answer question chunks doc_id raw = .ok r ∧
        (List.lookup "found" ms.reverse = none → r.found = .bool false) ∧
        (List.lookup "answer" ms.reverse = none → r.answer = .str "") ∧
        (List.lookup "citations" ms.reverse = none → r.citations = .arr [])) ∧
    (∀ e, _parse_json (String.mk (stripChars raw.data)) = .error e →
      compose_answer question chunks doc_id raw = .error e) := by
  constructor
  · intro ms hp
    refine ⟨{ question := question, doc_id := doc_id,
              found := pyDictGet ms "found" (.bool false),
              answer := pyDictGet ms "answer" (.str ""),
              citations := pyDictGet ms "citations" (.arr []),
              retrieved_chunk_ids := chunks.map Chunk.chunk_id,
              fallback := ! pyTruthy (pyDictGet ms "found" (.bool true)) }, ?_, ?_, ?_, ?_⟩
    · unfold compose_answer
      simp only []
      rw [hp]
    · intro hnone
      simp [pyDictGet, hnone]
    · intro hnone
      simp [pyDictGet, hnone]
    · intro hnone
      simp [pyDictGet, hnone]
  · intro e hp
    unfold compose_answer
    simp only []
    rw [hp]

/-- Witness for C2 at the empty-object response and at a non-JSON response. -/
theorem compose_answer_defaults_c2_witness :
    (∃ r, compose_answer "q" [] "d" "\x7b\x7d" = .ok r ∧
      (List.lookup "found" (List.reverse ([] : List (String × Json))) = none →
        r.found = .bool false) ∧
      (List.lookup "answer" (List.reverse ([] : List (String × Json))) = none →
        r.answer = .str "") ∧
      (List.lookup "citations" (List.reverse ([] : List (String × Json))) = none →
        r.citations = .arr [])) ∧
    compose_answer "q" [] "d" "hello" = .error "json: expecting value" :=
  ⟨(compose_answer_defaults_c2 "q" "d" "\x7b\x7d" []).1 [] (by rfl),
   (compose_answer_defaults_c2 "q" "d" "hello" []).2 "json: expecting value" (by rfl)⟩

/-- Counterexample for C3: a response citing the fabricated chunk_id "zzz"
passes through compose_answer although only "abc" was retrieved, so a
citation can carry a chunk_id outside retrieved_chunk_ids. -/
theorem compose_answer_c3_counterexample :
    ∃ r, compose_answer "q" [cA] "d" rawC3 = .ok r ∧
      r.citations = .arr [.obj [("chunk_id", .str "zzz")]] ∧
      r.retrieved_chunk_ids = ["abc"] ∧ ¬ "zzz" ∈ r.retrieved_chunk_ids := by
  refine ⟨_, rfl, rfl, rfl, by decide⟩

/-- Claim C3 as amended: compose_answer copies the citations verbatim from
the response (defaulting to the empty list when absent) without validating
their chunk_ids against the retrieved set; the membership invariant
therefore holds exactly when the model complies, and vacuously when the
response has no citations. -/
theorem compose_answer_citations_c3 (question doc_id raw : String) (chunks : List Chunk)
    (r : PyQAResult) (h : compose_answer question chunks doc_id raw = .ok r) :
    ∃ ms, _parse_json (String.mk (stripChars raw.data)) = .ok (.obj ms) ∧
      r.citations = pyDictGet ms "citations" (.arr []) ∧
      (List.lookup "citations" ms.reverse = none → r.citations = .arr []) := by
  obtain ⟨ms, hp, hr⟩ := compose_answer_ok_inv question doc_id raw chunks r h
  subst hr
  refine ⟨ms, hp, rfl, ?_⟩
  intro hnone
  simp [pyDictGet, hnone]

/-- Witness for C3 at the empty-object response. -/
theorem compose_answer_citations_c3_witness :
    ∃ ms, _parse_json (String.mk (stripChars "\x7b\x7d".data)) = .ok (.obj ms) ∧
      r0.citations = pyDictGet ms "citations" (.arr []) ∧
      (List.lookup "citations" ms.reverse = none → r0.citations = .arr []) :=
  compose_answer_citations_c3 "q" "d" "\x7b\x7d" [] r0 rfl

/-- Counterexample for C7: a response with found false and answer "Nope."
yields a result whose answer is "Nope.", not the fixed refusal string —
compose_answer never substitutes the refusal text. -/
theorem compose_answer_c7_counterexample :
    ∃ r, compose_answer "q" [] "d" rawC7 = .ok r ∧
      pyTruthy r.found = false ∧ r.answer = .str "Nope." ∧
      r.answer ≠ .str refusalText := by
  refine ⟨_, rfl, rfl, rfl, ?_⟩
  intro hc
  have hc2 : Json.str "Nope." = Json.str refusalText := hc
  rw [Json.str.injEq] at hc2
  exact absurd hc2 (by decide)

/-- Claim C7 as amended: the answer field of a compose_answer result is
whatever the response supplied (the empty string when absent), also when
found is false; the fixed refusal string appears only if the model itself
returned it. -/
theorem compose_answer_answer_c7 (question doc_id raw : String) (chunks : List Chunk)
    (r : PyQAResult) (h : compose_answer question chunks doc_id raw = .ok r) :
    ∃ ms, _parse_json (String.mk (stripChars raw.data)) = .ok (.obj ms) ∧
      r.answer = pyDictGet ms "answer" (.str "") ∧
      (List.lookup "answer" ms.reverse = none → r.answer = .str "") := by
  obtain ⟨ms, hp, hr⟩ := compose_answer_ok_inv question doc_id raw chunks r h
  subst hr
  refine ⟨ms, hp, rfl, ?_⟩
  intro hnone
  simp [pyDictGet, hnone]

/-- Witness for C7 at the empty-object response. -/
theorem compose_answer_answer_c7_witness :
    ∃ ms, _parse_json (String.mk (stripChars "\x7b\x7d".data)) = .ok (.obj ms) ∧
      r0.answer = pyDictGet ms "answer" (.str "") ∧
      (List.lookup "answer" ms.reverse = none → r0.answer = .str "") :=
  compose_answer_answer_c7 "q" "d" "\x7b\x7d" [] r0 rfl

/-- Claim C9: every result compose_answer returns carries as
retrieved_chunk_ids exactly the chunk_ids of the retrieval input, in input
order, whatever the response contained. -/
theorem compose_answer_retrieved_ids_c9 (question doc_id raw : String)
    (chunks : List Chunk) (r : PyQAResult)
    (h : compose_answer question chunks doc_id raw = .ok r) :
    r.retrieved_chunk_ids = chunks.map Chunk.chunk_id := by
  obtain ⟨ms, hp, hr⟩ := compose_answer_ok_inv question doc_id raw chunks r h
  subst hr
  rfl

/-- Witness for C9 at the empty-object response with one retrieved chunk. -/
theorem compose_answer_retrieved_ids_c9_witness :
    r0A.retrieved_chunk_ids = [cA].map Chunk.chunk_id :=
  compose_answer_retrieved_ids_c9 "q" "d" "\x7b\x7d" [cA] r0A rfl

/-- Claim C10: a chunk whose page_num and section are both Python-falsy —
absent, but also page 0 or an empty section string, because the source
tests truthiness rather than comparing with null — is rendered with the
"Location unknown" label in the generation request. -/
theorem loc_unknown_c10 (c : Chunk)
    (hp : c.page_num = none ∨ c.page_num = some 0)
    (hs : c.«section» = none ∨ c.«section» = some "") :
    _loc c = "Location unknown" ∧
    (∀ q, _build_user_message q [c] =
      "Question: " ++ q ++ "\n\n" ++ "---\n\n" ++
      "Passages retrieved from the document:\n\n" ++
      ("[Passage 1 | chunk_id: " ++ c.chunk_id ++ " | " ++ "Location unknown" ++ "]\n" ++
        c.text) ++ "\n\n" ++
      "---\n\n" ++ "Answer the question using ONLY these passages. Return valid JSON.") := by
  have hloc : _loc c = "Location unknown" := by
    have hemp : " | ".intercalate ([] : List String) = "" := rfl
    rcases hp with hp | hp <;> rcases hs with hs | hs <;>
      simp [_loc, hp, hs, hemp]
  refine ⟨hloc, ?_⟩
  intro q
  simp only [_build_user_message, List.enum, List.enumFrom, List.map_cons, List.map_nil, hloc]
  rfl

/-- Witness for C10 at a chunk with page 0 and empty section. -/
theorem loc_unknown_c10_witness :
    _loc { chunk_id := "cid", doc_id := "d", text := "body", page_num := some 0,
           «section» := some "", word_start := 0 } = "Location unknown" :=
  (loc_unknown_c10 _ (Or.inr rfl) (Or.inr rfl)).1
